import Mathlib

/-!
Shallow embedding of the Ilowa prediction-market program (Rust/Anchor sources
under programs/ilowa/src), covering the market lifecycle, wager admission,
resolution (manual and oracle), payout computation, and the shielded-aggregate
coordinator.  Machine integers are modelled as `Nat` with explicit `% 2^w`
or bound checks where the source uses checked/saturating arithmetic; public
keys are modelled as `Nat` (0 = `Pubkey::default()`); fallible instructions
return `Except IlowaError`.
-/

namespace Ilowa

def U64_MOD : Nat := 2 ^ 64
def U32_MOD : Nat := 2 ^ 32
def U128_MOD : Nat := 2 ^ 128

/-- Error codes from errors.rs (only the ones the core instructions use),
plus `TransferFailed`, which models a failed system-program CPI transfer
(insufficient lamports in the debited account). -/
inductive IlowaError where
  | QuestionTooLong
  | MarketAlreadyResolved
  | MarketExpired
  | MarketNotExpired
  | MarketNotActive
  | InvalidExpiry
  | BetTooSmall
  | BetTooLarge
  | InvalidEncryptedData
  | InvalidZkProof
  | InvalidResolveDate
  | ResolveDateTooFar
  | InvalidCategory
  | InvalidRegion
  | MarketNotResolved
  | AlreadyClaimed
  | BetLost
  | NoWinningBets
  | OracleNotSet
  | OraclePriceMismatch
  | OraclePriceStale
  | ShieldedPoolFinalized
  | NotMxeAuthority
  | InvalidOracleAccount
  | InvalidOracleExponent
  | Unauthorized
  | ArithmeticOverflow
  | TransferFailed
  deriving DecidableEq, Repr

/-- Models `u64::checked_add`: `Some` iff the mathematical sum fits in 64 bits. -/
def checkedAdd64 (a b : Nat) : Except IlowaError Nat :=
  if a + b < U64_MOD then .ok (a + b) else .error .ArithmeticOverflow

/-- Models `u64::checked_sub`: `Some` iff no underflow. -/
def checkedSub64 (a b : Nat) : Except IlowaError Nat :=
  if b ≤ a then .ok (a - b) else .error .ArithmeticOverflow

/-- Models `u64::checked_mul`: `Some` iff the product fits in 64 bits. -/
def checkedMul64 (a b : Nat) : Except IlowaError Nat :=
  if a * b < U64_MOD then .ok (a * b) else .error .ArithmeticOverflow

/-- Models `u64::checked_div`: `Some` (flooring) iff the divisor is nonzero. -/
def checkedDiv64 (a b : Nat) : Except IlowaError Nat :=
  if b = 0 then .error .ArithmeticOverflow else .ok (a / b)

/-- Models `u32::checked_add` (used for `total_bets` / `shielded_bet_count`). -/
def checkedAdd32 (a b : Nat) : Except IlowaError Nat :=
  if a + b < U32_MOD then .ok (a + b) else .error .ArithmeticOverflow

/-- Models `u128::checked_mul`: `Some` iff the product fits in 128 bits. -/
def checkedMul128 (a b : Nat) : Except IlowaError Nat :=
  if a * b < U128_MOD then .ok (a * b) else .error .ArithmeticOverflow

/-- Models `u128::checked_div`: `Some` (flooring) iff the divisor is nonzero. -/
def checkedDiv128 (a b : Nat) : Except IlowaError Nat :=
  if b = 0 then .error .ArithmeticOverflow else .ok (a / b)

-- ── Little-endian byte readers (Pyth account parsing) ────────────────────────

/-- Little-endian value of a byte list (least significant byte first). -/
def leNat (bs : List Nat) : Nat :=
  bs.foldr (fun b acc => b + 256 * acc) 0

/-- Slice `data[off..off+len]` as in the Rust slice indexing. -/
def sliceBytes (data : List Nat) (off len : Nat) : List Nat :=
  (data.drop off).take len

/-- Models `u32::from_le_bytes(data[off..off+4])`. -/
def readU32LE (data : List Nat) (off : Nat) : Nat :=
  leNat (sliceBytes data off 4)

/-- Models `u64::from_le_bytes(data[off..off+8])`. -/
def readU64LE (data : List Nat) (off : Nat) : Nat :=
  leNat (sliceBytes data off 8)

/-- Two's-complement reinterpretation of a 32-bit unsigned value. -/
def toI32 (n : Nat) : Int :=
  if n < 2 ^ 31 then (n : Int) else (n : Int) - 2 ^ 32

/-- Two's-complement reinterpretation of a 64-bit unsigned value. -/
def toI64 (n : Nat) : Int :=
  if n < 2 ^ 63 then (n : Int) else (n : Int) - 2 ^ 64

/-- Models `i32::from_le_bytes(data[off..off+4])`. -/
def readI32LE (data : List Nat) (off : Nat) : Int :=
  toI32 (readU32LE data off)

/-- Models `i64::from_le_bytes(data[off..off+8])`. -/
def readI64LE (data : List Nat) (off : Nat) : Int :=
  toI64 (readU64LE data off)

def PYTH_MAGIC : Nat := 0xa1b2c3d4
def MAX_PRICE_AGE_SLOTS : Nat := 25

/-- Models `read_pyth_price` from light_market.rs: validates a Pyth V1 price account
byte buffer and returns the aggregate price.  Checks, in source order:
length ≥ 240, magic at offset 0, exponent at 20 within [-12,0], publish slot
at 232 nonzero and at most 25 slots behind `current_slot` (saturating
subtraction, which `Nat` subtraction models exactly), status at 224 equal
to 1 (Trading); returns the `i64` aggregate price at offset 208. -/
def read_pyth_price (data : List Nat) (current_slot : Nat) : Except IlowaError Int :=
  if data.length < 240 then .error .InvalidOracleAccount
  else if readU32LE data 0 ≠ PYTH_MAGIC then .error .InvalidOracleAccount
  else
    let expo := readI32LE data 20
    if ¬ (-12 ≤ expo ∧ expo ≤ 0) then .error .InvalidOracleExponent
    else
      let pub_slot := readU64LE data 232
      if ¬ (pub_slot > 0 ∧ current_slot - pub_slot ≤ MAX_PRICE_AGE_SLOTS) then
        .error .OraclePriceStale
      else if readU32LE data 224 ≠ 1 then .error .OraclePriceStale
      else .ok (readI64LE data 208)

-- ── Plain market variant (state/market.rs) ───────────────────────────────────

inductive MarketStatus where
  | Active
  | Resolved
  | Expired
  | Disputed
  deriving DecidableEq, Repr

/-- Models `Market` account from state/market.rs.  `creator` is a pubkey (`Nat`,
0 = default); timestamps are `Int` (i64 unix seconds). -/
structure Market where
  creator : Nat
  question : String
  category : String
  region : String
  is_private : Bool
  status : MarketStatus
  outcome : Option Bool
  yes_pool : Nat
  no_pool : Nat
  total_bets : Nat
  created_at : Int
  expires_at : Int
  resolved_at : Option Int
  deriving DecidableEq, Repr

/-- Models `Bet` account from state/market.rs. -/
structure Bet where
  market : Nat
  user : Nat
  outcome : Bool
  amount : Nat
  is_shielded : Bool
  timestamp : Int
  claimed : Bool
  deriving DecidableEq, Repr

/-- Models `ShieldedBetAccount` from shielded_bet.rs (bytes as `List Nat`). -/
structure ShieldedBetAccount where
  market : Nat
  bettor : Nat
  encrypted_amount : List Nat
  outcome : Bool
  zk_proof : List Nat
  timestamp : Int
  resolved : Bool
  deriving DecidableEq, Repr

def MIN_BET : Nat := 10000000
def MAX_BET : Nat := 100000000000
def PLATFORM_FEE_BPS : Nat := 50
def PRIVACY_FEE : Nat := 5000000
def ARCIUM_PRIVACY_FEE : Nat := 5000000
def ONE_YEAR : Int := 365 * 24 * 60 * 60

/-- Models `create_market` from create_market.rs: rejects a question over 280
characters and an expiry not strictly in the future; initialises the
market with zeroed pools, Active status, no outcome. -/
def create_market (now : Int) (creator : Nat) (question category region : String)
    (is_private : Bool) (expires_at : Int) : Except IlowaError Market :=
  if ¬ (question.length ≤ 280) then .error .QuestionTooLong
  else if ¬ (expires_at > now) then .error .InvalidExpiry
  else .ok
    { creator := creator
      question := question
      category := category
      region := region
      is_private := is_private
      status := .Active
      outcome := none
      yes_pool := 0
      no_pool := 0
      total_bets := 0
      created_at := now
      expires_at := expires_at
      resolved_at := none }

/-- Result of a successful `place_bet`: updated market, the new bet record,
and the fee/net lamport transfers performed. -/
structure PlaceBetOk where
  market : Market
  bet : Bet
  fee : Nat
  net : Nat
  deriving Repr

/-- Models `place_bet` from place_bet.rs.  Account constraint (market Active) is
checked first, then the body: bet bounds, expiry, 0.5% fee split, checked
pool/counter updates, bet record creation (`amount = net`). -/
def place_bet (now : Int) (market : Market) (user : Nat) (amount : Nat)
    (outcome : Bool) : Except IlowaError PlaceBetOk := do
  if market.status ≠ .Active then .error .MarketNotActive
  else if ¬ (amount ≥ MIN_BET) then .error .BetTooSmall
  else if ¬ (amount ≤ MAX_BET) then .error .BetTooLarge
  else if ¬ (now < market.expires_at) then .error .MarketExpired
  else do
    let f ← checkedMul64 amount PLATFORM_FEE_BPS
    let platform_fee ← checkedDiv64 f 10000
    let net_amount ← checkedSub64 amount platform_fee
    let yes' ← if outcome then checkedAdd64 market.yes_pool net_amount
               else .ok market.yes_pool
    let no' ← if outcome then .ok market.no_pool
              else checkedAdd64 market.no_pool net_amount
    let tb ← checkedAdd32 market.total_bets 1
    .ok
      { market := { market with yes_pool := yes', no_pool := no', total_bets := tb }
        bet :=
          { market := 0
            user := user
            outcome := outcome
            amount := net_amount
            is_shielded := false
            timestamp := now
            claimed := false }
        fee := platform_fee
        net := net_amount }

/-- Result of a successful `shielded_bet`: updated market, the new shielded
bet record, and the flat privacy fee transferred to the treasury. -/
structure ShieldedBetOk where
  market : Market
  bet : ShieldedBetAccount
  fee : Nat
  deriving Repr

/-- Models `shielded_bet` from shielded_bet.rs.  Validates the ciphertext and proof
lengths against the 32..=128 byte RANGE (not an exact length), checks
expiry, charges the flat privacy fee, and increments only `total_bets` —
the yes/no pools are untouched because amounts are encrypted. -/
def shielded_bet (now : Int) (market : Market) (user : Nat)
    (encrypted_amount zk_proof : List Nat) (outcome : Bool) :
    Except IlowaError ShieldedBetOk := do
  if market.status ≠ .Active then .error .MarketNotActive
  else if ¬ (encrypted_amount.length ≥ 32 ∧ encrypted_amount.length ≤ 128) then
    .error .InvalidEncryptedData
  else if ¬ (zk_proof.length ≥ 32 ∧ zk_proof.length ≤ 128) then
    .error .InvalidZkProof
  else if ¬ (now < market.expires_at) then .error .MarketExpired
  else do
    let tb ← checkedAdd32 market.total_bets 1
    .ok
      { market := { market with total_bets := tb }
        bet :=
          { market := 0
            bettor := user
            encrypted_amount := encrypted_amount
            outcome := outcome
            zk_proof := zk_proof
            timestamp := now
            resolved := false }
        fee := PRIVACY_FEE }

/-- Models `resolve_market` from resolve_market.rs.  Account constraints in source
order: market Active (else `MarketNotActive`), resolver is the creator
(else `Unauthorized`).  Note: the body performs NO time check against
`expires_at` — the creator may resolve at any time. -/
def resolve_market (market : Market) (resolver : Nat) (now : Int)
    (outcome : Bool) : Except IlowaError Market :=
  if market.status ≠ .Active then .error .MarketNotActive
  else if market.creator ≠ resolver then .error .Unauthorized
  else .ok
    { market with
      status := .Resolved
      outcome := some outcome
      resolved_at := some now }

-- ── Payout formulas ──────────────────────────────────────────────────────────

/-- The additive payout computation from claim_winnings.rs lines 56-64:
`bet.amount + bet.amount * losing_pool / winning_pool`, every step in
CHECKED u64 arithmetic (mul, then div, then add). -/
def additivePayout (amount losing_pool winning_pool : Nat) :
    Except IlowaError Nat := do
  let p ← checkedMul64 amount losing_pool
  let q ← checkedDiv64 p winning_pool
  checkedAdd64 amount q

/-- The ratio payout computation from claim_light_winnings (light_market.rs
lines 435-442): `total = winning + losing` in checked u64, then
`amount * total / winning` in u128 intermediates, finally CAST to u64
(`as u64`), which silently truncates modulo 2^64. -/
def ratioPayout (amount winning_pool losing_pool : Nat) :
    Except IlowaError Nat := do
  let total ← checkedAdd64 winning_pool losing_pool
  let p ← checkedMul128 amount total
  let q ← checkedDiv128 p winning_pool
  .ok (q % U64_MOD)

/-- Models `claim_winnings` from claim_winnings.rs.  Account constraints in source
order: market Resolved (`MarketNotResolved`), bet owned by the signer
(`Unauthorized`), bet not yet claimed (`AlreadyClaimed`).  Body: the bet
side must match the resolved outcome (`BetLost`), the winning pool must be
positive (`NoWinningBets`), winnings are the additive payout, the vault
pays the user, and the bet is marked claimed.  The market account is not
mutable in this instruction.  Returns the updated bet and the transfer. -/
def claim_winnings (market : Market) (bet : Bet) (user : Nat) :
    Except IlowaError (Bet × Nat) := do
  if market.status ≠ .Resolved then .error .MarketNotResolved
  else if bet.user ≠ user then .error .Unauthorized
  else if bet.claimed then .error .AlreadyClaimed
  else
    match market.outcome with
    | none => .error .MarketNotResolved
    | some market_outcome =>
      if bet.outcome ≠ market_outcome then .error .BetLost
      else
        let wp := if market_outcome then market.yes_pool else market.no_pool
        let lp := if market_outcome then market.no_pool else market.yes_pool
        if ¬ (wp > 0) then .error .NoWinningBets
        else do
          let winnings ← additivePayout bet.amount lp wp
          .ok ({ bet with claimed := true }, winnings)

-- ── Light market variant (light_market.rs) ───────────────────────────────────

/-- Models `LightMarketStub` account.  `outcome`: 0 = unresolved, 1 = YES, 2 = NO.
`oracle_authority` 0 models `Pubkey::default()` (no oracle). -/
structure LightMarketStub where
  creator : Nat
  question_hash : List Nat
  category : Nat
  region : Nat
  resolve_date : Int
  yes_pool : Nat
  no_pool : Nat
  total_bets : Nat
  shielded_bet_count : Nat
  is_active : Bool
  resolved : Bool
  outcome : Nat
  created_at : Int
  oracle_authority : Nat
  oracle_threshold : Int
  oracle_above : Bool
  deriving DecidableEq, Repr

/-- Models `LightBetStub` account. -/
structure LightBetStub where
  market : Nat
  bettor : Nat
  amount : Nat
  outcome : Bool
  timestamp : Int
  claimed : Bool
  deriving DecidableEq, Repr

/-- Models `ShieldedLightBetStub` account. -/
structure ShieldedLightBetStub where
  market : Nat
  bettor : Nat
  encrypted_amount : List Nat
  outcome : Bool
  zk_proof : List Nat
  timestamp : Int
  claimed : Bool
  deriving DecidableEq, Repr

/-- Models `ShieldedPoolAggregate` account. -/
structure ShieldedPoolAggregate where
  market : Nat
  encrypted_yes_total : List Nat
  encrypted_no_total : List Nat
  total_shielded_bets : Nat
  last_updated : Int
  mxe_authority : Nat
  is_finalized : Bool
  deriving DecidableEq, Repr

/-- Models `create_light_market`: category ≤ 6, region ≤ 8, resolve date strictly
in the future and less than one year out; zeroed pools and counters,
active, unresolved, outcome 0, oracle binding stored as given. -/
def create_light_market (now : Int) (creator : Nat) (question_hash : List Nat)
    (category region : Nat) (resolve_date : Int) (oracle_authority : Nat)
    (oracle_threshold : Int) (oracle_above : Bool) :
    Except IlowaError LightMarketStub :=
  if ¬ (category ≤ 6) then .error .InvalidCategory
  else if ¬ (region ≤ 8) then .error .InvalidRegion
  else if ¬ (resolve_date > now) then .error .InvalidResolveDate
  else if ¬ (resolve_date < now + ONE_YEAR) then .error .ResolveDateTooFar
  else .ok
    { creator := creator
      question_hash := question_hash
      category := category
      region := region
      resolve_date := resolve_date
      yes_pool := 0
      no_pool := 0
      total_bets := 0
      shielded_bet_count := 0
      is_active := true
      resolved := false
      outcome := 0
      created_at := now
      oracle_authority := oracle_authority
      oracle_threshold := oracle_threshold
      oracle_above := oracle_above }

/-- Result of a successful `place_light_bet`. -/
structure PlaceLightBetOk where
  market : LightMarketStub
  bet : LightBetStub
  fee : Nat
  net : Nat
  deriving Repr

/-- Models `place_light_bet`: market must be active (account constraint), amount in
[MIN_BET, MAX_BET], now before `resolve_date`; 0.5% fee to treasury, net to
the vault, chosen pool and `total_bets` incremented with checked adds. -/
def place_light_bet (now : Int) (market : LightMarketStub) (bettor : Nat)
    (amount : Nat) (outcome : Bool) : Except IlowaError PlaceLightBetOk := do
  if ¬ market.is_active then .error .MarketNotActive
  else if ¬ (amount ≥ MIN_BET) then .error .BetTooSmall
  else if ¬ (amount ≤ MAX_BET) then .error .BetTooLarge
  else if ¬ (now < market.resolve_date) then .error .MarketExpired
  else do
    let f ← checkedMul64 amount PLATFORM_FEE_BPS
    let fee ← checkedDiv64 f 10000
    let net ← checkedSub64 amount fee
    let yes' ← if outcome then checkedAdd64 market.yes_pool net
               else .ok market.yes_pool
    let no' ← if outcome then .ok market.no_pool
              else checkedAdd64 market.no_pool net
    let tb ← checkedAdd32 market.total_bets 1
    .ok
      { market := { market with yes_pool := yes', no_pool := no', total_bets := tb }
        bet :=
          { market := 0
            bettor := bettor
            amount := net
            outcome := outcome
            timestamp := now
            claimed := false }
        fee := fee
        net := net }

/-- Result of a successful `place_shielded_light_bet`. -/
structure PlaceShieldedLightBetOk where
  market : LightMarketStub
  bet : ShieldedLightBetStub
  fee : Nat
  deriving Repr

/-- Models `place_shielded_light_bet`: market must be active (account constraint);
`encrypted_amount` must be EXACTLY 80 bytes (`InvalidEncryptedData`) and
`zk_proof` EXACTLY 64 bytes (`InvalidZkProof`); now before `resolve_date`;
flat privacy fee to treasury; `total_bets` and `shielded_bet_count`
incremented — yes/no pools are untouched. -/
def place_shielded_light_bet (now : Int) (market : LightMarketStub)
    (bettor : Nat) (encrypted_amount zk_proof : List Nat) (outcome : Bool) :
    Except IlowaError PlaceShieldedLightBetOk := do
  if ¬ market.is_active then .error .MarketNotActive
  else if ¬ (encrypted_amount.length = 80) then .error .InvalidEncryptedData
  else if ¬ (zk_proof.length = 64) then .error .InvalidZkProof
  else if ¬ (now < market.resolve_date) then .error .MarketExpired
  else do
    let tb ← checkedAdd32 market.total_bets 1
    let sbc ← checkedAdd32 market.shielded_bet_count 1
    .ok
      { market := { market with total_bets := tb, shielded_bet_count := sbc }
        bet :=
          { market := 0
            bettor := bettor
            encrypted_amount := encrypted_amount
            outcome := outcome
            zk_proof := zk_proof
            timestamp := now
            claimed := false }
        fee := ARCIUM_PRIVACY_FEE }

/-- Models `resolve_light_market`: account checks in Anchor's evaluation order
(`has_one = creator` then the raw constraints in attribute order:
`is_active`, `!resolved`), body requires `now ≥ resolve_date`
(`MarketNotExpired`), then sets resolved, inactive, outcome 1/2. -/
def resolve_light_market (market : LightMarketStub) (signer : Nat) (now : Int)
    (outcome : Bool) : Except IlowaError LightMarketStub :=
  if market.creator ≠ signer then .error .Unauthorized
  else if ¬ market.is_active then .error .MarketNotActive
  else if market.resolved then .error .MarketAlreadyResolved
  else if ¬ (now ≥ market.resolve_date) then .error .MarketNotExpired
  else .ok
    { market with
      resolved := true
      is_active := false
      outcome := if outcome then 1 else 2 }

/-- The effective price of `resolve_light_market_oracle`: passing the System
Program as `price_feed` (modelled as `none`) selects the caller-attested
price; any other account (`some data`) is parsed as a Pyth feed and the
attested price is ignored. -/
def effectivePrice (price_feed : Option (List Nat)) (attested_price : Int)
    (current_slot : Nat) : Except IlowaError Int :=
  match price_feed with
  | none => Except.ok attested_price
  | some data => read_pyth_price data current_slot

/-- Models `resolve_light_market_oracle`: account constraints in attribute order
(signer is the bound oracle authority → `Unauthorized`; authority nonzero →
`OracleNotSet`; not resolved → `MarketAlreadyResolved`; active →
`MarketNotActive`).  The expected outcome compares the effective price
against the threshold in the direction of `oracle_above`; a mismatching
claimed outcome fails `OraclePriceMismatch`. -/
def resolve_light_market_oracle (market : LightMarketStub) (signer : Nat)
    (price_feed : Option (List Nat)) (attested_price : Int) (outcome : Bool)
    (current_slot : Nat) : Except IlowaError LightMarketStub :=
  if market.oracle_authority ≠ signer then .error .Unauthorized
  else if market.oracle_authority = 0 then .error .OracleNotSet
  else if market.resolved then .error .MarketAlreadyResolved
  else if ¬ market.is_active then .error .MarketNotActive
  else
    (effectivePrice price_feed attested_price current_slot).bind
      fun effective_price =>
        let expected : Bool :=
          if market.oracle_above then effective_price ≥ market.oracle_threshold
          else effective_price ≤ market.oracle_threshold
        if outcome ≠ expected then .error .OraclePriceMismatch
        else .ok
          { market with
            resolved := true
            is_active := false
            outcome := if outcome then 1 else 2 }

/-- Models `claim_light_winnings`: account constraints (market resolved →
`MarketNotResolved`; bet's bettor is the signer → `Unauthorized`), then the
body: not yet claimed (`AlreadyClaimed`), bet on the winning side
(`BetLost`), total pool via checked u64 add, winning pool positive
(`NoWinningBets`), payout `amount * total / winning` in u128 cast to u64.
The market account is not mutable here; returns the updated bet and the
vault→bettor transfer. -/
def claim_light_winnings (market : LightMarketStub) (bet : LightBetStub)
    (bettor : Nat) : Except IlowaError (LightBetStub × Nat) := do
  if ¬ market.resolved then .error .MarketNotResolved
  else if bet.bettor ≠ bettor then .error .Unauthorized
  else if bet.claimed then .error .AlreadyClaimed
  else if ¬ ((market.outcome = 1 ∧ bet.outcome) ∨ (market.outcome = 2 ∧ ¬ bet.outcome)) then
    .error .BetLost
  else
    let winning_pool := if market.outcome = 1 then market.yes_pool else market.no_pool
    do
      let total_pool ← checkedAdd64 market.yes_pool market.no_pool
      if ¬ (winning_pool > 0) then .error .NoWinningBets
      else do
        let p ← checkedMul128 bet.amount total_pool
        let q ← checkedDiv128 p winning_pool
        .ok ({ bet with claimed := true }, q % U64_MOD)

/-- Models `init_shielded_pool`: only the market creator (has_one) may create the
aggregate; binds `mxe_authority`, zeroes totals, not finalized. -/
def init_shielded_pool (market : LightMarketStub) (signer : Nat)
    (mxe_authority : Nat) : Except IlowaError ShieldedPoolAggregate :=
  if market.creator ≠ signer then .error .Unauthorized
  else .ok
    { market := 0
      encrypted_yes_total := []
      encrypted_no_total := []
      total_shielded_bets := 0
      last_updated := 0
      mxe_authority := mxe_authority
      is_finalized := false }

/-- Models `submit_shielded_aggregate`: account constraints (signer is the bound
MXE authority → `NotMxeAuthority`; not finalized → `ShieldedPoolFinalized`),
then ciphertext lengths capped at 80 (`InvalidEncryptedData`); stores the
submitted totals and latches `is_finalized := finalize`. -/
def submit_shielded_aggregate (pool : ShieldedPoolAggregate) (signer : Nat)
    (now : Int) (encrypted_yes_total encrypted_no_total : List Nat)
    (total_shielded_bets : Nat) (finalize : Bool) :
    Except IlowaError ShieldedPoolAggregate :=
  if pool.mxe_authority ≠ signer then .error .NotMxeAuthority
  else if pool.is_finalized then .error .ShieldedPoolFinalized
  else if ¬ (encrypted_yes_total.length ≤ 80) then .error .InvalidEncryptedData
  else if ¬ (encrypted_no_total.length ≤ 80) then .error .InvalidEncryptedData
  else .ok
    { pool with
      encrypted_yes_total := encrypted_yes_total
      encrypted_no_total := encrypted_no_total
      total_shielded_bets := total_shielded_bets
      last_updated := now
      is_finalized := finalize }

-- ── Operation sequences over the light market ────────────────────────────────

/-- Core operations driving one light market.  `claim` carries the
claimant's bet record; the claim instruction's market account is immutable
in the source, so the step returns the market unchanged there. -/
inductive LightOp where
  | placeBet (now : Int) (bettor amount : Nat) (outcome : Bool)
  | placeShielded (now : Int) (bettor : Nat) (enc zk : List Nat) (outcome : Bool)
  | resolveManual (signer : Nat) (now : Int) (outcome : Bool)
  | resolveOracle (signer : Nat) (feed : Option (List Nat)) (attested : Int)
      (outcome : Bool) (slot : Nat)
  | claim (bet : LightBetStub) (bettor : Nat)
  deriving Repr

/-- One step of a light market's `(market, vault lamports)` state: plain
bets credit the vault with the net stake (the fee goes to the treasury,
outside this state), shielded bets pay only the flat fee to the treasury,
resolution moves no funds, and claim debits the vault by the payout
(failing like the system-program transfer when the vault lacks the
lamports).  A failing instruction leaves the state with the caller. -/
def lightStep (m : LightMarketStub) (vault : Nat) (op : LightOp) :
    Except IlowaError (LightMarketStub × Nat) :=
  match op with
  | .placeBet now bettor amount outcome =>
      (place_light_bet now m bettor amount outcome).map fun r => (r.market, vault + r.net)
  | .placeShielded now bettor enc zk outcome =>
      (place_shielded_light_bet now m bettor enc zk outcome).map fun r => (r.market, vault)
  | .resolveManual signer now outcome =>
      (resolve_light_market m signer now outcome).map fun m2 => (m2, vault)
  | .resolveOracle signer feed attested outcome slot =>
      (resolve_light_market_oracle m signer feed attested outcome slot).map
        fun m2 => (m2, vault)
  | .claim bet bettor =>
      (claim_light_winnings m bet bettor).bind fun r =>
        if r.2 ≤ vault then .ok (m, vault - r.2) else .error .TransferFailed

/-- Core operations driving one plain market (no oracle path exists for the
plain variant). -/
inductive PlainOp where
  | placeBet (now : Int) (user amount : Nat) (outcome : Bool)
  | placeShielded (now : Int) (user : Nat) (enc zk : List Nat) (outcome : Bool)
  | resolveManual (resolver : Nat) (now : Int) (outcome : Bool)
  | claim (bet : Bet) (user : Nat)
  deriving Repr

/-- One step of a plain market's `(market, vault lamports)` state, mirroring
`lightStep`.  The plain claim instruction's market account is likewise not
mutable in the source. -/
def plainStep (m : Market) (vault : Nat) (op : PlainOp) :
    Except IlowaError (Market × Nat) :=
  match op with
  | .placeBet now user amount outcome =>
      (place_bet now m user amount outcome).map fun r => (r.market, vault + r.net)
  | .placeShielded now user enc zk outcome =>
      (shielded_bet now m user enc zk outcome).map fun r => (r.market, vault)
  | .resolveManual resolver now outcome =>
      (resolve_market m resolver now outcome).map fun m2 => (m2, vault)
  | .claim bet user =>
      (claim_winnings m bet user).bind fun r =>
        if r.2 ≤ vault then .ok (m, vault - r.2) else .error .TransferFailed

/-- Arguments of one `submit_shielded_aggregate` call. -/
structure SubmitArgs where
  signer : Nat
  now : Int
  encrypted_yes_total : List Nat
  encrypted_no_total : List Nat
  total_shielded_bets : Nat
  finalize : Bool
  deriving Repr

/-- Replays a list of `submit_shielded_aggregate` calls against an aggregate
record; a rejected call leaves the record unchanged (the transaction
reverts). -/
def runSubmits (pool : ShieldedPoolAggregate) : List SubmitArgs → ShieldedPoolAggregate
  | [] => pool
  | a :: rest =>
    match submit_shielded_aggregate pool a.signer a.now a.encrypted_yes_total
        a.encrypted_no_total a.total_shielded_bets a.finalize with
    | .ok p2 => runSubmits p2 rest
    | .error _ => runSubmits pool rest


-- ── Concrete fixtures used by witnesses and counterexamples ──────────────────

/-- Fixture: a resolved plain market (YES outcome, pools 100/50). -/
def market_c2 : Market :=
  { creator := 3, question := "btc150k", category := "crypto", region := "latam",
    is_private := false, status := .Resolved, outcome := some true,
    yes_pool := 100, no_pool := 50, total_bets := 2, created_at := 0,
    expires_at := 10, resolved_at := some 10 }

/-- Fixture: an unclaimed winning bet of 60 on `market_c2`. -/
def bet_c2 : Bet :=
  { market := 0, user := 7, outcome := true, amount := 60,
    is_shielded := false, timestamp := 1, claimed := false }

/-- Fixture: a resolved plain market whose creator is 9. -/
def market_c3 : Market :=
  { creator := 9, question := "q", category := "c", region := "r",
    is_private := false, status := .Resolved, outcome := some false,
    yes_pool := 10, no_pool := 20, total_bets := 2, created_at := 0,
    expires_at := 100, resolved_at := some 100 }

/-- Fixture: a resolved light market bound to oracle authority 5. -/
def light_c3 : LightMarketStub :=
  { creator := 2, question_hash := [], category := 0, region := 0,
    resolve_date := 10, yes_pool := 5, no_pool := 5, total_bets := 1,
    shielded_bet_count := 0, is_active := false, resolved := true, outcome := 1,
    created_at := 0, oracle_authority := 5, oracle_threshold := 10,
    oracle_above := true }

/-- Fixture: an active plain market created by 7 that expires at time 1000. -/
def market_c4 : Market :=
  { creator := 7, question := "q", category := "c", region := "r",
    is_private := false, status := .Active, outcome := none,
    yes_pool := 0, no_pool := 0, total_bets := 0, created_at := 0,
    expires_at := 1000, resolved_at := none }

/-- Fixture: an active, unresolved light market created by 7. -/
def light_c4 : LightMarketStub :=
  { creator := 7, question_hash := [], category := 0, region := 0,
    resolve_date := 100, yes_pool := 0, no_pool := 0, total_bets := 0,
    shielded_bet_count := 0, is_active := true, resolved := false, outcome := 0,
    created_at := 0, oracle_authority := 0, oracle_threshold := 0,
    oracle_above := false }

/-- Fixture: a well-formed 240-byte Pyth price record — magic `0xa1b2c3d4`,
exponent -8, aggregate price 42 at offset 208, status Trading, publish
slot 70. -/
def feed_c5 : List Nat :=
  [212, 195, 178, 161] ++ List.replicate 16 0 ++ [248, 255, 255, 255] ++
  List.replicate 184 0 ++ [42, 0, 0, 0, 0, 0, 0, 0] ++ List.replicate 8 0 ++
  [1, 0, 0, 0] ++ List.replicate 4 0 ++ [70, 0, 0, 0, 0, 0, 0, 0]

/-- Fixture: a 3-byte buffer, far below the 240-byte minimum. -/
def shortFeed_c5 : List Nat := [1, 2, 3]

/-- Fixture: an active light market bound to oracle authority 5 with
threshold 10 and upward comparison direction. -/
def light_c6 : LightMarketStub :=
  { creator := 2, question_hash := [], category := 0, region := 0,
    resolve_date := 10, yes_pool := 4, no_pool := 6, total_bets := 2,
    shielded_bet_count := 0, is_active := true, resolved := false, outcome := 0,
    created_at := 0, oracle_authority := 5, oracle_threshold := 10,
    oracle_above := true }

/-- Fixture: an active plain market for shielded-bet length experiments. -/
def market_c7 : Market :=
  { creator := 1, question := "q", category := "c", region := "r",
    is_private := false, status := .Active, outcome := none,
    yes_pool := 0, no_pool := 0, total_bets := 0, created_at := 0,
    expires_at := 100, resolved_at := none }

/-- Fixture: an active light market for shielded-bet length experiments. -/
def light_c7 : LightMarketStub :=
  { creator := 1, question_hash := [], category := 0, region := 0,
    resolve_date := 100, yes_pool := 0, no_pool := 0, total_bets := 0,
    shielded_bet_count := 0, is_active := true, resolved := false, outcome := 0,
    created_at := 0, oracle_authority := 0, oracle_threshold := 0,
    oracle_above := false }

/-- Fixture: a finalized shielded aggregate bound to MXE authority 5. -/
def pool_c8 : ShieldedPoolAggregate :=
  { market := 0, encrypted_yes_total := [1], encrypted_no_total := [2],
    total_shielded_bets := 3, last_updated := 4, mxe_authority := 5,
    is_finalized := true }

/-- Fixture: a fresh active light market with empty pools. -/
def light_c9 : LightMarketStub :=
  { creator := 1, question_hash := [], category := 0, region := 0,
    resolve_date := 100, yes_pool := 0, no_pool := 0, total_bets := 0,
    shielded_bet_count := 0, is_active := true, resolved := false, outcome := 0,
    created_at := 0, oracle_authority := 0, oracle_threshold := 0,
    oracle_above := false }

/-- Fixture: a Pyth record whose publish slot (100) lies in the future of the
evaluation slot used by the witness (50); price 7, exponent 0, status 1. -/
def feed_c10 : List Nat :=
  [212, 195, 178, 161] ++ List.replicate 16 0 ++ [0, 0, 0, 0] ++
  List.replicate 184 0 ++ [7, 0, 0, 0, 0, 0, 0, 0] ++ List.replicate 8 0 ++
  [1, 0, 0, 0] ++ List.replicate 4 0 ++ [100, 0, 0, 0, 0, 0, 0, 0]

/-- Decidable equality for `Except`, so concrete runs can be checked by
`decide`. -/
instance {e a : Type} [DecidableEq e] [DecidableEq a] : DecidableEq (Except e a) := fun x y =>
  match x, y with
  | .ok u, .ok v =>
    if h : u = v then .isTrue (by rw [h]) else .isFalse (by intro c; cases c; exact h rfl)
  | .error u, .error v =>
    if h : u = v then .isTrue (by rw [h]) else .isFalse (by intro c; cases c; exact h rfl)
  | .ok _, .error _ => .isFalse (by intro c; cases c)
  | .error _, .ok _ => .isFalse (by intro c; cases c)

-- ── Helper lemmas ────────────────────────────────────────────────────────────

@[simp] theorem exceptBind_ok {e a b : Type} (x : a) (f : a → Except e b) :
    (Except.ok x : Except e a) >>= f = f x := rfl

@[simp] theorem exceptBind_error {e a b : Type} (x : e) (f : a → Except e b) :
    (Except.error x : Except e a) >>= f = Except.error x := rfl

@[simp] theorem exceptDotBind_ok {e a b : Type} (x : a) (f : a → Except e b) :
    (Except.ok x : Except e a).bind f = f x := rfl

@[simp] theorem exceptDotBind_error {e a b : Type} (x : e) (f : a → Except e b) :
    (Except.error x : Except e a).bind f = Except.error x := rfl

@[simp] theorem exceptMap_ok {e a b : Type} (f : a → b) (x : a) :
    (Except.ok x : Except e a).map f = Except.ok (f x) := rfl

@[simp] theorem exceptMap_error {e a b : Type} (f : a → b) (x : e) :
    (Except.error x : Except e a).map f = Except.error x := rfl

@[simp] theorem exceptIsOk_ok {e a : Type} (x : a) :
    (Except.ok x : Except e a).isOk = true := rfl

@[simp] theorem exceptIsOk_error {e a : Type} (x : e) :
    (Except.error x : Except e a).isOk = false := rfl

theorem checkedAdd64_comm (a b : Nat) : checkedAdd64 a b = checkedAdd64 b a := by
  simp [checkedAdd64, Nat.add_comm]

@[simp] theorem effectivePrice_none (a : Int) (s : Nat) :
    effectivePrice none a s = .ok a := rfl

@[simp] theorem effectivePrice_some (d : List Nat) (a : Int) (s : Nat) :
    effectivePrice (some d) a s = read_pyth_price d s := rfl


/-- Inversion of a successful plain `claim_winnings` call: the returned bet is
marked claimed, the transfer equals the additive payout formula at the pools
selected by the resolved outcome, and re-running the claim on the updated bet
fails with `AlreadyClaimed`. -/
theorem claim_winnings_first_claim
    (market : Market) (bet : Bet) (user : Nat) (bet2 : Bet) (t : Nat)
    (h : claim_winnings market bet user = .ok (bet2, t)) :
    bet2.claimed = true ∧
    (∃ o, market.outcome = some o ∧
      additivePayout bet.amount
        (if o then market.no_pool else market.yes_pool)
        (if o then market.yes_pool else market.no_pool) = .ok t) ∧
    claim_winnings market bet2 user = .error .AlreadyClaimed := by
  cases hst : market.status <;> simp only [claim_winnings, hst] at h <;> try simp at h
  by_cases hu : bet.user = user
  swap
  · simp [hu] at h
  cases hcl : bet.claimed with
  | true => simp [hcl, hu] at h
  | false =>
  cases hmo : market.outcome with
  | none => simp [hmo, hcl, hu] at h
  | some o =>
  by_cases hbo : bet.outcome = o
  swap
  · simp [hmo, hcl, hu, hbo] at h
  cases o with
  | false =>
    by_cases hwp : market.no_pool = 0
    · simp [hmo, hcl, hu, hbo, hwp] at h
    cases hw : additivePayout bet.amount market.yes_pool market.no_pool with
    | error e => simp [hmo, hcl, hu, hbo, hwp, hw] at h
    | ok wv =>
      simp [hmo, hcl, hu, hbo, hwp, hw] at h
      obtain ⟨hb2, ht⟩ := h
      subst hb2; subst ht
      refine ⟨rfl, ⟨false, rfl, by simpa using hw⟩, ?_⟩
      simp [claim_winnings, hst, hu]
  | true =>
    by_cases hwp : market.yes_pool = 0
    · simp [hmo, hcl, hu, hbo, hwp] at h
    cases hw : additivePayout bet.amount market.no_pool market.yes_pool with
    | error e => simp [hmo, hcl, hu, hbo, hwp, hw] at h
    | ok wv =>
      simp [hmo, hcl, hu, hbo, hwp, hw] at h
      obtain ⟨hb2, ht⟩ := h
      subst hb2; subst ht
      refine ⟨rfl, ⟨true, rfl, by simpa using hw⟩, ?_⟩
      simp [claim_winnings, hst, hu]

/-- Inversion of a successful `claim_light_winnings` call, mirroring
`claim_winnings_first_claim` with the ratio payout formula. -/
theorem claim_light_winnings_first_claim
    (market : LightMarketStub) (bet : LightBetStub) (bettor : Nat)
    (bet2 : LightBetStub) (t : Nat)
    (h : claim_light_winnings market bet bettor = .ok (bet2, t)) :
    bet2.claimed = true ∧
    ratioPayout bet.amount
      (if market.outcome = 1 then market.yes_pool else market.no_pool)
      (if market.outcome = 1 then market.no_pool else market.yes_pool) = .ok t ∧
    claim_light_winnings market bet2 bettor = .error .AlreadyClaimed := by
  cases hres : market.resolved with
  | false => simp [claim_light_winnings, hres] at h
  | true =>
  by_cases hb : bet.bettor = bettor
  swap
  · simp [claim_light_winnings, hres, hb] at h
  cases hcl : bet.claimed with
  | true => simp [claim_light_winnings, hres, hb, hcl] at h
  | false =>
  by_cases h1 : market.outcome = 1
  · cases hbo : bet.outcome with
    | false => simp [claim_light_winnings, hres, hb, hcl, h1, hbo] at h
    | true =>
      cases hta : checkedAdd64 market.yes_pool market.no_pool with
      | error e => simp [claim_light_winnings, hres, hb, hcl, h1, hbo, hta] at h
      | ok total =>
      by_cases hwp : market.yes_pool = 0
      · simp [claim_light_winnings, hres, hb, hcl, h1, hbo, hta] at h
        simp [hwp] at h
      cases hm : checkedMul128 bet.amount total with
      | error e => simp [claim_light_winnings, hres, hb, hcl, h1, hbo, hta, hwp, hm] at h
      | ok p =>
        simp [claim_light_winnings, hres, hb, hcl, h1, hbo, hta, hwp, hm,
          checkedDiv128] at h
        obtain ⟨hb2, ht⟩ := h
        subst hb2; subst ht
        refine ⟨rfl, ?_, ?_⟩
        · simp [ratioPayout, h1, hta, hm, checkedDiv128, hwp]
        · simp [claim_light_winnings, hres, hb, h1]
  · by_cases h2 : market.outcome = 2
    swap
    · simp [claim_light_winnings, hres, hb, hcl, h1, h2] at h
    cases hbo : bet.outcome with
    | true => simp [claim_light_winnings, hres, hb, hcl, h1, h2, hbo] at h
    | false =>
      cases hta : checkedAdd64 market.yes_pool market.no_pool with
      | error e => simp [claim_light_winnings, hres, hb, hcl, h1, h2, hbo, hta] at h
      | ok total =>
      by_cases hwp : market.no_pool = 0
      · simp [claim_light_winnings, hres, hb, hcl, h1, h2, hbo, hta] at h
        simp [hwp] at h
      cases hm : checkedMul128 bet.amount total with
      | error e => simp [claim_light_winnings, hres, hb, hcl, h1, h2, hbo, hta, hwp, hm] at h
      | ok p =>
        simp [claim_light_winnings, hres, hb, hcl, h1, h2, hbo, hta, hwp, hm,
          checkedDiv128] at h
        obtain ⟨hb2, ht⟩ := h
        subst hb2; subst ht
        refine ⟨rfl, ?_, ?_⟩
        · have hcomm := checkedAdd64_comm market.no_pool market.yes_pool
          simp [ratioPayout, h1, hcomm, hta, hm, checkedDiv128, hwp]
        · simp [claim_light_winnings, hres, hb, h1]

/-- C1.  The claim as frozen is false: the additive formula runs in checked
u64 arithmetic and overflows on triples whose pools fit comfortably in 64
bits, while the u128 ratio formula succeeds there (silently truncating its
result with `as u64`).  Counterexample at `bet.amount = losing_pool = 2^32`,
`winning_pool = 1`: the additive form aborts with `ArithmeticOverflow`, the
ratio form returns `2^32` (truncated from `2^64 + 2^32`), so the two are not
identical. -/
theorem payout_additive_ratio_counterexample :
    additivePayout (2 ^ 32) (2 ^ 32) 1 = .error .ArithmeticOverflow ∧
    ratioPayout (2 ^ 32) 1 (2 ^ 32) = .ok (2 ^ 32) ∧
    additivePayout (2 ^ 32) (2 ^ 32) 1 ≠ ratioPayout (2 ^ 32) 1 (2 ^ 32) := by
  refine ⟨by decide, by decide, by decide⟩

/-- C1 (amended).  Whenever no 64-bit step overflows — the additive form's
u64 product and sum stay below `2^64` and the pool total fits in u64 — the
additive payout of claim_winnings and the u128 ratio payout of
claim_light_winnings both succeed and agree exactly, both computing
`amount + amount * losing / winning`. -/
theorem payout_additive_ratio_agree (a l w : Nat) (hw : 0 < w)
    (hml : a * l < U64_MOD) (hadd : a + a * l / w < U64_MOD)
    (htot : w + l < U64_MOD) :
    additivePayout a l w = .ok (a + a * l / w) ∧
    ratioPayout a w l = .ok (a + a * l / w) := by
  have hw' : w ≠ 0 := Nat.pos_iff_ne_zero.mp hw
  have ha : a < U64_MOD := lt_of_le_of_lt (Nat.le_add_right a _) hadd
  have hm128 : a * (w + l) < U128_MOD := by
    have h2 : U64_MOD * U64_MOD = U128_MOD := by norm_num [U64_MOD, U128_MOD]
    calc a * (w + l) < U64_MOD * U64_MOD :=
          Nat.mul_lt_mul_of_lt_of_le ha (Nat.le_of_lt htot) (by norm_num [U64_MOD])
      _ = U128_MOD := h2
  have hdiv : a * (w + l) / w = a + a * l / w := by
    rw [Nat.mul_add, Nat.mul_comm a w, Nat.add_comm (w * a) (a * l),
      Nat.add_mul_div_left (a * l) a hw, Nat.add_comm]
  constructor
  · simp [additivePayout, checkedMul64, checkedDiv64, checkedAdd64, hml, hw', hadd]
  · simp [ratioPayout, checkedAdd64, checkedMul128, checkedDiv128, htot, hm128, hw',
      hdiv, Nat.mod_eq_of_lt hadd]

/-- Witness for C1's amended theorem at `(a, l, w) = (3, 5, 2)`: both payout
forms return 10. -/
theorem payout_additive_ratio_agree_witness :
    0 < 2 ∧ additivePayout 3 5 2 = .ok 10 ∧ ratioPayout 3 2 5 = .ok 10 := by
  have h := payout_additive_ratio_agree 3 5 2 (by decide) (by decide) (by decide) (by decide)
  exact ⟨by decide, h.1, h.2⟩

/-- C2.  A claim succeeds at most once per bet, in both market variants: a
successful call returns the bet with `claimed = true`, its transfer equals
the respective payout formula exactly, and re-running the claim on the
updated bet fails with `AlreadyClaimed` (an error carries no state change
and no transfer). -/
theorem claim_at_most_once :
    (∀ (market : Market) (bet : Bet) (user : Nat) (bet2 : Bet) (t : Nat),
      claim_winnings market bet user = .ok (bet2, t) →
      bet2.claimed = true ∧
      (∃ o, market.outcome = some o ∧
        additivePayout bet.amount
          (if o then market.no_pool else market.yes_pool)
          (if o then market.yes_pool else market.no_pool) = .ok t) ∧
      claim_winnings market bet2 user = .error .AlreadyClaimed) ∧
    (∀ (market : LightMarketStub) (bet : LightBetStub) (bettor : Nat)
        (bet2 : LightBetStub) (t : Nat),
      claim_light_winnings market bet bettor = .ok (bet2, t) →
      bet2.claimed = true ∧
      ratioPayout bet.amount
        (if market.outcome = 1 then market.yes_pool else market.no_pool)
        (if market.outcome = 1 then market.no_pool else market.yes_pool) = .ok t ∧
      claim_light_winnings market bet2 bettor = .error .AlreadyClaimed) :=
  ⟨fun market bet user bet2 t h =>
    claim_winnings_first_claim market bet user bet2 t h,
   fun market bet bettor bet2 t h =>
    claim_light_winnings_first_claim market bet bettor bet2 t h⟩

/-- Witness for C2 on `market_c2` / `bet_c2`: the first claim pays
`60 + 60*50/100 = 90` and the second claim is rejected. -/
theorem claim_at_most_once_witness :
    claim_winnings market_c2 bet_c2 7 = .ok ({ bet_c2 with claimed := true }, 90) ∧
    ({ bet_c2 with claimed := true } : Bet).claimed = true ∧
    claim_winnings market_c2 { bet_c2 with claimed := true } 7 =
      .error .AlreadyClaimed := by
  have h := claim_at_most_once.1 market_c2 bet_c2 7 { bet_c2 with claimed := true } 90
    (by decide)
  exact ⟨by decide, h.1, h.2.2⟩


/-- C3 counterexample.  A resolved plain market — even when its own creator
retries — is rejected with `MarketNotActive`, not `MarketAlreadyResolved`:
the plain manual path has no resolved-specific check, so the claim's error
code is wrong for it. -/
theorem resolve_already_resolved_counterexample :
    resolve_market market_c3 9 50 true = .error .MarketNotActive ∧
    IlowaError.MarketNotActive ≠ IlowaError.MarketAlreadyResolved := by
  refine ⟨by decide, by decide⟩

/-- C3 (amended).  Any resolution attempt on an already-resolved market
fails, and the error carries no state, so outcome and status are never
overwritten; but only the oracle path (called by its bound, nonzero
authority) reports `MarketAlreadyResolved`.  The plain manual path reports
`MarketNotActive` for every caller, and the light manual path — whose
`is_active` constraint precedes its `resolved` constraint, and where
resolution also clears `is_active` — reports `Unauthorized` for a
non-creator and `MarketNotActive` for the creator. -/
theorem resolve_already_resolved_always_fails :
    (∀ (m : Market) (resolver : Nat) (now : Int) (outcome : Bool),
      m.status = .Resolved →
      resolve_market m resolver now outcome = .error .MarketNotActive) ∧
    (∀ (lm : LightMarketStub) (signer : Nat) (now : Int) (outcome : Bool),
      lm.resolved = true → lm.is_active = false →
      resolve_light_market lm signer now outcome =
        .error (if lm.creator ≠ signer then .Unauthorized else .MarketNotActive)) ∧
    (∀ (lm : LightMarketStub) (signer : Nat) (feed : Option (List Nat))
        (attested : Int) (outcome : Bool) (slot : Nat),
      lm.resolved = true → lm.oracle_authority = signer → signer ≠ 0 →
      resolve_light_market_oracle lm signer feed attested outcome slot =
        .error .MarketAlreadyResolved) := by
  refine ⟨?_, ?_, ?_⟩
  · intro m resolver now outcome hst
    simp [resolve_market, hst]
  · intro lm signer now outcome hres hact
    by_cases hc : lm.creator = signer <;> simp [resolve_light_market, hres, hact, hc]
  · intro lm signer feed attested outcome slot hres hauth hnz
    have hne : ¬ lm.oracle_authority = 0 := by rw [hauth]; exact hnz
    simp [resolve_light_market_oracle, hres, hauth, hne, hnz]

/-- Witness for C3: the oracle path on the resolved `light_c3` (called by
its authority 5) reports `MarketAlreadyResolved`, while the plain path on
the resolved `market_c3` (called by outsider 4) reports `MarketNotActive`. -/
theorem resolve_already_resolved_witness :
    resolve_light_market_oracle light_c3 5 none 0 true 0 =
      .error .MarketAlreadyResolved ∧
    resolve_market market_c3 4 50 true = .error .MarketNotActive := by
  refine ⟨resolve_already_resolved_always_fails.2.2 light_c3 5 none 0 true 0
      (by decide) (by decide) (by decide),
    resolve_already_resolved_always_fails.1 market_c3 4 50 true (by decide)⟩

/-- C4 counterexample.  The plain `resolve_market` has no time gate: the
creator resolves `market_c4` at time 5, far before its expiry 1000, and the
call succeeds — refuting "a manual resolution attempt before that time
always fails". -/
theorem manual_resolution_counterexample :
    (5 : Int) < market_c4.expires_at ∧
    (resolve_market market_c4 7 5 true).isOk = true := by
  refine ⟨by decide, by decide⟩

/-- C4 (amended).  The light variant enforces exactly the claimed
conditions: manual resolution succeeds iff the caller is the creator, the
market is active and unresolved, and `resolve_date ≤ now` (otherwise
`MarketNotExpired`).  The plain variant checks only creator and Active
status: the creator can resolve at ANY time, before or after `expires_at`. -/
theorem manual_resolution_conditions :
    (∀ (lm : LightMarketStub) (signer : Nat) (now : Int) (outcome : Bool),
      (resolve_light_market lm signer now outcome).isOk = true ↔
      (lm.creator = signer ∧ lm.is_active = true ∧ lm.resolved = false ∧
        lm.resolve_date ≤ now)) ∧
    (∀ (m : Market) (resolver : Nat) (now : Int) (outcome : Bool),
      m.status = .Active → m.creator = resolver →
      (resolve_market m resolver now outcome).isOk = true) := by
  constructor
  · intro lm signer now outcome
    unfold resolve_light_market
    split_ifs with h1 h2 h3 h4 h5 <;>
      solve
        | simp [h1]
        | simp [h2]
        | simp [h3]
        | simp [h4]
        | exact iff_of_true rfl ⟨by omega, by assumption, by simp_all, by omega⟩
  · intro m resolver now outcome hst hcr
    simp [resolve_market, hst, hcr]

/-- Witness for C4's amended theorem: the light market resolves once
`now = 150 ≥ resolve_date = 100`, and the plain market resolves at `now = 5`
long before `expires_at = 1000`. -/
theorem manual_resolution_witness :
    (resolve_light_market light_c4 7 150 true).isOk = true ∧
    (resolve_market market_c4 7 5 false).isOk = true := by
  constructor
  · exact (manual_resolution_conditions.1 light_c4 7 150 true).mpr
      ⟨rfl, rfl, rfl, by decide⟩
  · exact manual_resolution_conditions.2 market_c4 7 5 false (by decide) (by decide)

/-- C5.  The price-feed reader applies its five checks in exactly the source
order, with the claimed error codes: short buffer → `InvalidOracleAccount`;
wrong magic → `InvalidOracleAccount`; exponent outside [-12, 0] →
`InvalidOracleExponent`; publish slot zero or more than 25 slots behind
(saturating difference) → `OraclePriceStale` regardless of the price bytes;
status ≠ 1 → `OraclePriceStale`; otherwise the signed 64-bit aggregate
price at offset 208 is returned.  Each clause assumes exactly the earlier
checks passed, which pins the evaluation order. -/
theorem read_pyth_price_check_order :
    ∀ (data : List Nat) (slot : Nat),
    (data.length < 240 → read_pyth_price data slot = .error .InvalidOracleAccount) ∧
    (240 ≤ data.length → readU32LE data 0 ≠ PYTH_MAGIC →
      read_pyth_price data slot = .error .InvalidOracleAccount) ∧
    (240 ≤ data.length → readU32LE data 0 = PYTH_MAGIC →
      ¬ (-12 ≤ readI32LE data 20 ∧ readI32LE data 20 ≤ 0) →
      read_pyth_price data slot = .error .InvalidOracleExponent) ∧
    (240 ≤ data.length → readU32LE data 0 = PYTH_MAGIC →
      -12 ≤ readI32LE data 20 → readI32LE data 20 ≤ 0 →
      (readU64LE data 232 = 0 ∨ slot - readU64LE data 232 > MAX_PRICE_AGE_SLOTS) →
      read_pyth_price data slot = .error .OraclePriceStale) ∧
    (240 ≤ data.length → readU32LE data 0 = PYTH_MAGIC →
      -12 ≤ readI32LE data 20 → readI32LE data 20 ≤ 0 →
      0 < readU64LE data 232 → slot - readU64LE data 232 ≤ MAX_PRICE_AGE_SLOTS →
      readU32LE data 224 ≠ 1 →
      read_pyth_price data slot = .error .OraclePriceStale) ∧
    (240 ≤ data.length → readU32LE data 0 = PYTH_MAGIC →
      -12 ≤ readI32LE data 20 → readI32LE data 20 ≤ 0 →
      0 < readU64LE data 232 → slot - readU64LE data 232 ≤ MAX_PRICE_AGE_SLOTS →
      readU32LE data 224 = 1 →
      read_pyth_price data slot = .ok (readI64LE data 208)) := by
  intro data slot
  refine ⟨?_, ?_, ?_, ?_, ?_, ?_⟩
  · intro h1
    simp [read_pyth_price, h1]
  · intro h1 h2
    rw [read_pyth_price, if_neg (by omega), if_pos h2]
  · intro h1 h2 h3
    rw [read_pyth_price, if_neg (by omega), if_neg (by simp [h2]), if_pos h3]
  · intro h1 h2 h3a h3b h4
    rw [read_pyth_price, if_neg (by omega), if_neg (by simp [h2]),
      if_neg (by simp; omega), if_pos (by omega)]
  · intro h1 h2 h3a h3b h4a h4b h5
    rw [read_pyth_price, if_neg (by omega), if_neg (by simp [h2]),
      if_neg (by simp; omega), if_neg (by omega), if_pos h5]
  · intro h1 h2 h3a h3b h4a h4b h5
    rw [read_pyth_price, if_neg (by omega), if_neg (by simp [h2]),
      if_neg (by simp; omega), if_neg (by omega), if_neg (by simp [h5])]

set_option maxRecDepth 4000 in
/-- Witness for C5: the well-formed `feed_c5` (price 42, published at slot
70, read at slot 77) is accepted, and the 3-byte `shortFeed_c5` is rejected
with `InvalidOracleAccount`. -/
theorem read_pyth_price_check_order_witness :
    read_pyth_price feed_c5 77 = .ok (readI64LE feed_c5 208) ∧
    readI64LE feed_c5 208 = 42 ∧
    read_pyth_price shortFeed_c5 77 = .error .InvalidOracleAccount := by
  refine ⟨(read_pyth_price_check_order feed_c5 77).2.2.2.2.2
      (by decide) (by decide) (by decide) (by decide) (by decide) (by decide) (by decide),
    by decide,
    (read_pyth_price_check_order shortFeed_c5 77).1 (by decide)⟩

/-- C6.  Under the oracle path's account constraints, the expected outcome
is the comparison of the effective price (caller-attested when the System
Program stands in for the feed, feed-read otherwise) against
`oracle_threshold`, upward when `oracle_above` and downward otherwise; a
claimed outcome differing from it fails with `OraclePriceMismatch` (an
error, so the market state is untouched), and a matching one resolves the
market to that outcome. -/
theorem oracle_outcome_matching :
    ∀ (lm : LightMarketStub) (signer : Nat) (attested : Int) (outcome : Bool)
      (slot : Nat) (data : List Nat) (p : Int),
    lm.oracle_authority = signer → signer ≠ 0 → lm.resolved = false →
    lm.is_active = true →
    ((outcome ≠ (if lm.oracle_above then decide (attested ≥ lm.oracle_threshold)
          else decide (attested ≤ lm.oracle_threshold)) →
        resolve_light_market_oracle lm signer none attested outcome slot =
          .error .OraclePriceMismatch) ∧
     (outcome = (if lm.oracle_above then decide (attested ≥ lm.oracle_threshold)
          else decide (attested ≤ lm.oracle_threshold)) →
        resolve_light_market_oracle lm signer none attested outcome slot =
          .ok { lm with
                resolved := true
                is_active := false
                outcome := if outcome then 1 else 2 }) ∧
     (read_pyth_price data slot = .ok p →
       ((outcome ≠ (if lm.oracle_above then decide (p ≥ lm.oracle_threshold)
            else decide (p ≤ lm.oracle_threshold)) →
          resolve_light_market_oracle lm signer (some data) attested outcome slot =
            .error .OraclePriceMismatch) ∧
        (outcome = (if lm.oracle_above then decide (p ≥ lm.oracle_threshold)
            else decide (p ≤ lm.oracle_threshold)) →
          resolve_light_market_oracle lm signer (some data) attested outcome slot =
            .ok { lm with
                  resolved := true
                  is_active := false
                  outcome := if outcome then 1 else 2 })))) := by
  intro lm signer attested outcome slot data p hauth hnz hres hact
  have hne : ¬ lm.oracle_authority = 0 := by rw [hauth]; exact hnz
  refine ⟨?_, ?_, fun hread => ⟨?_, ?_⟩⟩
  · intro hmm
    simp [resolve_light_market_oracle, effectivePrice, hauth, hne, hnz, hres, hact, hmm]
  · intro hmm
    simp [resolve_light_market_oracle, effectivePrice, hauth, hne, hnz, hres, hact, hmm]
  · intro hmm
    simp [resolve_light_market_oracle, effectivePrice, hauth, hne, hnz, hres, hact,
      hread, hmm]
  · intro hmm
    simp [resolve_light_market_oracle, effectivePrice, hauth, hne, hnz, hres, hact,
      hread, hmm]

/-- Witness for C6 on `light_c6` (threshold 10, upward direction) with
attested price 12: claiming YES resolves the market to outcome 1, claiming
NO fails with `OraclePriceMismatch`. -/
theorem oracle_outcome_matching_witness :
    resolve_light_market_oracle light_c6 5 none 12 true 0 =
      .ok { light_c6 with resolved := true, is_active := false, outcome := 1 } ∧
    resolve_light_market_oracle light_c6 5 none 12 false 0 =
      .error .OraclePriceMismatch := by
  have h := oracle_outcome_matching light_c6 5 12 true 0 [] 0 rfl (by decide) rfl rfl
  have h2 := oracle_outcome_matching light_c6 5 12 false 0 [] 0 rfl (by decide) rfl rfl
  constructor
  · have hr := h.2.1 (by decide)
    simpa using hr
  · exact h2.1 (by decide)


/-- Inversion of a successful plain `shielded_bet`: the pools are untouched
and exactly `total_bets` is bumped; the market status is unchanged. -/
theorem shielded_bet_ok_facts (now : Int) (m : Market) (user : Nat)
    (enc zk : List Nat) (outcome : Bool) (r : ShieldedBetOk)
    (h : shielded_bet now m user enc zk outcome = .ok r) :
    r.market.yes_pool = m.yes_pool ∧ r.market.no_pool = m.no_pool ∧
    r.market.total_bets = m.total_bets + 1 ∧ r.market.status = m.status := by
  unfold shielded_bet checkedAdd32 at h
  repeat' first
    | split at h
    | simp only [exceptBind_ok, exceptBind_error] at h
  all_goals try exact Except.noConfusion h
  all_goals cases h
  all_goals simp_all

/-- Inversion of a successful `place_shielded_light_bet`: the pools are
untouched, both bet counters are bumped, the resolution flag is unchanged,
and the accepted ciphertext and proof have the exact lengths 80 and 64. -/
theorem place_shielded_light_bet_ok_facts (now : Int) (m : LightMarketStub)
    (bettor : Nat) (enc zk : List Nat) (outcome : Bool)
    (r : PlaceShieldedLightBetOk)
    (h : place_shielded_light_bet now m bettor enc zk outcome = .ok r) :
    r.market.yes_pool = m.yes_pool ∧ r.market.no_pool = m.no_pool ∧
    r.market.total_bets = m.total_bets + 1 ∧
    r.market.shielded_bet_count = m.shielded_bet_count + 1 ∧
    r.market.resolved = m.resolved ∧
    enc.length = 80 ∧ zk.length = 64 := by
  unfold place_shielded_light_bet checkedAdd32 at h
  repeat' first
    | split at h
    | simp only [exceptBind_ok, exceptBind_error] at h
  all_goals try exact Except.noConfusion h
  all_goals cases h
  all_goals simp_all

/-- C7 counterexample.  The plain `shielded_bet` accepts `encrypted_amount`
and `zk_proof` buffers of two DIFFERENT lengths (40 and 80 bytes), so no
single exact expected byte length exists whose mismatch is always rejected:
the claim's exact-length reading is false for this variant, which only
range-checks 32..=128. -/
theorem shielded_bet_exact_length_counterexample :
    ¬ ∃ (La Lp : Nat), ∀ (now : Int) (m : Market) (user : Nat)
        (enc zk : List Nat) (outcome : Bool),
      (shielded_bet now m user enc zk outcome).isOk = true →
      enc.length = La ∧ zk.length = Lp := by
  rintro ⟨La, Lp, hx⟩
  have h40 := hx 0 market_c7 1 (List.replicate 40 0) (List.replicate 40 0) true
    (by decide)
  have h80 := hx 0 market_c7 1 (List.replicate 80 0) (List.replicate 80 0) true
    (by decide)
  simp at h40 h80
  omega

/-- C7 (amended).  The LIGHT variant rejects unless `encrypted_amount` is
exactly 80 bytes (`InvalidEncryptedData`) and `zk_proof` exactly 64 bytes
(`InvalidZkProof`); the PLAIN variant rejects unless each length lies in
the range 32..=128 (same two errors).  Only these structural checks are
performed — no cryptographic verification — and every accepted call leaves
`yes_pool`/`no_pool` untouched, changing only the bet counters. -/
theorem shielded_bet_length_checks :
    (∀ (now : Int) (m : LightMarketStub) (bettor : Nat) (enc zk : List Nat)
        (outcome : Bool),
      (m.is_active = true → enc.length ≠ 80 →
        place_shielded_light_bet now m bettor enc zk outcome =
          .error .InvalidEncryptedData) ∧
      (m.is_active = true → enc.length = 80 → zk.length ≠ 64 →
        place_shielded_light_bet now m bettor enc zk outcome =
          .error .InvalidZkProof) ∧
      (∀ r, place_shielded_light_bet now m bettor enc zk outcome = .ok r →
        r.market.yes_pool = m.yes_pool ∧ r.market.no_pool = m.no_pool ∧
        r.market.total_bets = m.total_bets + 1 ∧
        r.market.shielded_bet_count = m.shielded_bet_count + 1)) ∧
    (∀ (now : Int) (m : Market) (user : Nat) (enc zk : List Nat) (outcome : Bool),
      (m.status = .Active → ¬ (32 ≤ enc.length ∧ enc.length ≤ 128) →
        shielded_bet now m user enc zk outcome = .error .InvalidEncryptedData) ∧
      (m.status = .Active → 32 ≤ enc.length → enc.length ≤ 128 →
        ¬ (32 ≤ zk.length ∧ zk.length ≤ 128) →
        shielded_bet now m user enc zk outcome = .error .InvalidZkProof) ∧
      (∀ r, shielded_bet now m user enc zk outcome = .ok r →
        r.market.yes_pool = m.yes_pool ∧ r.market.no_pool = m.no_pool ∧
        r.market.total_bets = m.total_bets + 1)) := by
  constructor
  · intro now m bettor enc zk outcome
    refine ⟨?_, ?_, ?_⟩
    · intro hact hlen
      simp [place_shielded_light_bet, hact, hlen]
    · intro hact hlen hzk
      simp [place_shielded_light_bet, hact, hlen, hzk]
    · intro r hr
      have h := place_shielded_light_bet_ok_facts now m bettor enc zk outcome r hr
      exact ⟨h.1, h.2.1, h.2.2.1, h.2.2.2.1⟩
  · intro now m user enc zk outcome
    refine ⟨?_, ?_, ?_⟩
    · intro hst hlen
      simp [shielded_bet, hst, hlen]
    · intro hst h1 h2 hzk
      simp [shielded_bet, hst, h1, h2, hzk]
    · intro r hr
      have h := shielded_bet_ok_facts now m user enc zk outcome r hr
      exact ⟨h.1, h.2.1, h.2.2.1⟩

/-- Witness for C7's amended theorem: the light variant rejects a 10-byte
ciphertext and a 10-byte proof with the claimed errors, and the plain
variant rejects a 10-byte ciphertext. -/
theorem shielded_bet_length_checks_witness :
    place_shielded_light_bet 0 light_c7 1 (List.replicate 10 0)
      (List.replicate 64 0) true = .error .InvalidEncryptedData ∧
    place_shielded_light_bet 0 light_c7 1 (List.replicate 80 0)
      (List.replicate 10 0) true = .error .InvalidZkProof ∧
    shielded_bet 0 market_c7 1 (List.replicate 10 0) (List.replicate 64 0) true =
      .error .InvalidEncryptedData := by
  refine ⟨(shielded_bet_length_checks.1 0 light_c7 1 (List.replicate 10 0)
      (List.replicate 64 0) true).1 rfl (by decide),
    (shielded_bet_length_checks.1 0 light_c7 1 (List.replicate 80 0)
      (List.replicate 10 0) true).2.1 rfl (by decide) (by decide),
    (shielded_bet_length_checks.2 0 market_c7 1 (List.replicate 10 0)
      (List.replicate 64 0) true).1 (by decide) (by decide)⟩

/-- Every `submit_shielded_aggregate` call on a finalized aggregate fails
(with `NotMxeAuthority` for a non-authority signer, `ShieldedPoolFinalized`
for the authority). -/
theorem submit_finalized_error (pool : ShieldedPoolAggregate) (signer : Nat)
    (now : Int) (ey en : List Nat) (tot : Nat) (doFinalize : Bool)
    (hfin : pool.is_finalized = true) :
    ∃ e, submit_shielded_aggregate pool signer now ey en tot doFinalize =
      .error e := by
  unfold submit_shielded_aggregate
  split_ifs with h1 <;> exact ⟨_, rfl⟩

/-- Replaying any sequence of submissions against a finalized aggregate
leaves it byte-for-byte unchanged. -/
theorem runSubmits_finalized (pool : ShieldedPoolAggregate)
    (hfin : pool.is_finalized = true) :
    ∀ calls, runSubmits pool calls = pool := by
  intro calls
  induction calls with
  | nil => rfl
  | cons a rest ih =>
    obtain ⟨e, he⟩ := submit_finalized_error pool a.signer a.now
      a.encrypted_yes_total a.encrypted_no_total a.total_shielded_bets
      a.finalize hfin
    unfold runSubmits
    rw [he]
    exact ih

/-- C8.  The aggregate's finalization flag is a one-way latch: only the
bound MXE authority's calls pass the signer check (`NotMxeAuthority`
otherwise); once `is_finalized` is true the authority's own calls fail with
`ShieldedPoolFinalized`; and replaying ANY sequence of further submissions
against a finalized aggregate leaves every stored field unchanged — in
particular nothing ever resets `is_finalized` to false. -/
theorem shielded_aggregate_finalization_latch :
    ∀ (pool : ShieldedPoolAggregate) (signer : Nat) (now : Int)
      (ey en : List Nat) (tot : Nat) (doFinalize : Bool),
    (pool.mxe_authority ≠ signer →
      submit_shielded_aggregate pool signer now ey en tot doFinalize =
        .error .NotMxeAuthority) ∧
    (pool.mxe_authority = signer → pool.is_finalized = true →
      submit_shielded_aggregate pool signer now ey en tot doFinalize =
        .error .ShieldedPoolFinalized) ∧
    (pool.is_finalized = true → ∀ calls, runSubmits pool calls = pool) := by
  intro pool signer now ey en tot doFinalize
  refine ⟨?_, ?_, ?_⟩
  · intro hne
    simp [submit_shielded_aggregate, hne]
  · intro hs hfin
    simp [submit_shielded_aggregate, hs, hfin]
  · intro hfin
    exact runSubmits_finalized pool hfin

/-- Witness for C8 on the finalized `pool_c8` (authority 5): the authority's
submission fails `ShieldedPoolFinalized`, an outsider's fails
`NotMxeAuthority`, and a replay of one submission leaves the pool intact. -/
theorem shielded_aggregate_finalization_latch_witness :
    submit_shielded_aggregate pool_c8 5 1 [] [] 9 true =
      .error .ShieldedPoolFinalized ∧
    submit_shielded_aggregate pool_c8 6 1 [] [] 9 true =
      .error .NotMxeAuthority ∧
    runSubmits pool_c8 [⟨5, 1, [], [], 9, false⟩] = pool_c8 := by
  refine ⟨(shielded_aggregate_finalization_latch pool_c8 5 1 [] [] 9 true).2.1
      rfl rfl,
    (shielded_aggregate_finalization_latch pool_c8 6 1 [] [] 9 true).1 (by decide),
    (shielded_aggregate_finalization_latch pool_c8 5 1 [] [] 9 true).2.2 rfl
      [⟨5, 1, [], [], 9, false⟩]⟩


/-- Inversion of a successful `place_light_bet`: the market was active and
unexpired, the pools only grow, the resolution flag is untouched, and
`total_bets` is bumped by one. -/
theorem place_light_bet_ok_facts (now : Int) (m : LightMarketStub)
    (bettor amount : Nat) (outcome : Bool) (r : PlaceLightBetOk)
    (h : place_light_bet now m bettor amount outcome = .ok r) :
    m.is_active = true ∧ now < m.resolve_date ∧
    m.yes_pool ≤ r.market.yes_pool ∧ m.no_pool ≤ r.market.no_pool ∧
    r.market.resolved = m.resolved ∧ r.market.total_bets = m.total_bets + 1 := by
  unfold place_light_bet checkedMul64 checkedDiv64 checkedSub64 checkedAdd64
    checkedAdd32 at h
  repeat' first
    | split at h
    | simp only [exceptBind_ok, exceptBind_error] at h
  all_goals try exact Except.noConfusion h
  all_goals cases h
  all_goals simp_all

/-- Inversion of a successful plain `place_bet`, mirroring
`place_light_bet_ok_facts`. -/
theorem place_bet_ok_facts (now : Int) (m : Market) (user amount : Nat)
    (outcome : Bool) (r : PlaceBetOk)
    (h : place_bet now m user amount outcome = .ok r) :
    m.status = .Active ∧ now < m.expires_at ∧
    m.yes_pool ≤ r.market.yes_pool ∧ m.no_pool ≤ r.market.no_pool := by
  unfold place_bet checkedMul64 checkedDiv64 checkedSub64 checkedAdd64
    checkedAdd32 at h
  repeat' first
    | split at h
    | simp only [exceptBind_ok, exceptBind_error] at h
  all_goals try exact Except.noConfusion h
  all_goals cases h
  all_goals simp_all

/-- Successful manual resolution of a plain market never touches the pools. -/
theorem resolve_market_pool_facts (m : Market) (resolver : Nat) (now : Int)
    (outcome : Bool) (m2 : Market)
    (h : resolve_market m resolver now outcome = .ok m2) :
    m2.yes_pool = m.yes_pool ∧ m2.no_pool = m.no_pool := by
  unfold resolve_market at h
  repeat' split at h
  all_goals try exact Except.noConfusion h
  all_goals cases h
  all_goals simp_all

/-- Successful manual resolution of a light market never touches the pools. -/
theorem resolve_light_market_pool_facts (m : LightMarketStub) (signer : Nat)
    (now : Int) (outcome : Bool) (m2 : LightMarketStub)
    (h : resolve_light_market m signer now outcome = .ok m2) :
    m2.yes_pool = m.yes_pool ∧ m2.no_pool = m.no_pool := by
  unfold resolve_light_market at h
  repeat' split at h
  all_goals try exact Except.noConfusion h
  all_goals cases h
  all_goals simp_all

/-- Successful oracle resolution of a light market never touches the pools. -/
theorem resolve_light_market_oracle_pool_facts (m : LightMarketStub)
    (signer : Nat) (feed : Option (List Nat)) (attested : Int) (outcome : Bool)
    (slot : Nat) (m2 : LightMarketStub)
    (h : resolve_light_market_oracle m signer feed attested outcome slot = .ok m2) :
    m2.yes_pool = m.yes_pool ∧ m2.no_pool = m.no_pool := by
  cases feed with
  | none =>
    unfold resolve_light_market_oracle at h
    repeat' first
      | split at h
      | simp only [effectivePrice_none, exceptBind_ok, exceptBind_error,
          exceptDotBind_ok, exceptDotBind_error] at h
    all_goals try exact Except.noConfusion h
    all_goals cases h
    all_goals simp_all
  | some data =>
    cases hrp : read_pyth_price data slot with
    | error e =>
      unfold resolve_light_market_oracle at h
      simp only [effectivePrice_some, hrp] at h
      repeat' first
        | split at h
        | simp only [exceptBind_ok, exceptBind_error, exceptDotBind_ok,
            exceptDotBind_error] at h
      all_goals try exact Except.noConfusion h
      all_goals cases h
      all_goals simp_all
    | ok p =>
      unfold resolve_light_market_oracle at h
      simp only [effectivePrice_some, hrp] at h
      repeat' first
        | split at h
        | simp only [exceptBind_ok, exceptBind_error, exceptDotBind_ok,
            exceptDotBind_error] at h
      all_goals try exact Except.noConfusion h
      all_goals cases h
      all_goals simp_all

/-- Facts about one successful `lightStep`: pools never shrink; any
operation other than a plain bet leaves both pools exactly unchanged; a
successful plain bet found the market active and unexpired; and a claim
leaves the market record untouched, draining only the vault. -/
theorem lightStep_ok_facts (m : LightMarketStub) (v : Nat) (op : LightOp)
    (m2 : LightMarketStub) (v2 : Nat)
    (h : lightStep m v op = .ok (m2, v2)) :
    (m.yes_pool ≤ m2.yes_pool ∧ m.no_pool ≤ m2.no_pool) ∧
    ((∀ now bettor amount outcome,
        op ≠ LightOp.placeBet now bettor amount outcome) →
      m2.yes_pool = m.yes_pool ∧ m2.no_pool = m.no_pool) ∧
    (∀ now bettor amount outcome,
      op = LightOp.placeBet now bettor amount outcome →
      m.is_active = true ∧ now < m.resolve_date) ∧
    (∀ bet bettor, op = LightOp.claim bet bettor → m2 = m ∧ v2 ≤ v) := by
  cases op with
  | placeBet now bettor amount outcome =>
    simp only [lightStep] at h
    cases hr : place_light_bet now m bettor amount outcome with
    | error e => rw [hr] at h; simp at h
    | ok r =>
      rw [hr] at h
      simp only [exceptMap_ok, Except.ok.injEq, Prod.mk.injEq] at h
      obtain ⟨hm, hv⟩ := h
      subst hm
      subst hv
      have hf := place_light_bet_ok_facts now m bettor amount outcome r hr
      refine ⟨⟨hf.2.2.1, hf.2.2.2.1⟩, ?_, ?_, ?_⟩
      · intro hne
        exact absurd rfl (hne now bettor amount outcome)
      · intro n b a o heq
        cases heq
        exact ⟨hf.1, hf.2.1⟩
      · intro bet bettor2 heq
        exact LightOp.noConfusion heq
  | placeShielded now bettor enc zk outcome =>
    simp only [lightStep] at h
    cases hr : place_shielded_light_bet now m bettor enc zk outcome with
    | error e => rw [hr] at h; simp at h
    | ok r =>
      rw [hr] at h
      simp only [exceptMap_ok, Except.ok.injEq, Prod.mk.injEq] at h
      obtain ⟨hm, hv⟩ := h
      subst hm
      subst hv
      have hf := place_shielded_light_bet_ok_facts now m bettor enc zk outcome r hr
      refine ⟨⟨le_of_eq hf.1.symm, le_of_eq hf.2.1.symm⟩, ?_, ?_, ?_⟩
      · intro _
        exact ⟨hf.1, hf.2.1⟩
      · intro n b a o heq
        exact LightOp.noConfusion heq
      · intro bet bettor2 heq
        exact LightOp.noConfusion heq
  | resolveManual signer now outcome =>
    simp only [lightStep] at h
    cases hr : resolve_light_market m signer now outcome with
    | error e => rw [hr] at h; simp at h
    | ok mm =>
      rw [hr] at h
      simp only [exceptMap_ok, Except.ok.injEq, Prod.mk.injEq] at h
      obtain ⟨hm, hv⟩ := h
      subst hm
      subst hv
      have hf := resolve_light_market_pool_facts m signer now outcome mm hr
      refine ⟨⟨le_of_eq hf.1.symm, le_of_eq hf.2.symm⟩, ?_, ?_, ?_⟩
      · intro _
        exact ⟨hf.1, hf.2⟩
      · intro n b a o heq
        exact LightOp.noConfusion heq
      · intro bet bettor2 heq
        exact LightOp.noConfusion heq
  | resolveOracle signer feed attested outcome slot =>
    simp only [lightStep] at h
    cases hr : resolve_light_market_oracle m signer feed attested outcome slot with
    | error e => rw [hr] at h; simp at h
    | ok mm =>
      rw [hr] at h
      simp only [exceptMap_ok, Except.ok.injEq, Prod.mk.injEq] at h
      obtain ⟨hm, hv⟩ := h
      subst hm
      subst hv
      have hf := resolve_light_market_oracle_pool_facts m signer feed attested
        outcome slot mm hr
      refine ⟨⟨le_of_eq hf.1.symm, le_of_eq hf.2.symm⟩, ?_, ?_, ?_⟩
      · intro _
        exact ⟨hf.1, hf.2⟩
      · intro n b a o heq
        exact LightOp.noConfusion heq
      · intro bet bettor2 heq
        exact LightOp.noConfusion heq
  | claim bet bettor =>
    simp only [lightStep] at h
    cases hr : claim_light_winnings m bet bettor with
    | error e => rw [hr] at h; simp at h
    | ok r =>
      rw [hr] at h
      simp only [exceptDotBind_ok] at h
      split at h
      · simp only [Except.ok.injEq, Prod.mk.injEq] at h
        obtain ⟨hm, hv⟩ := h
        subst hm
        subst hv
        refine ⟨⟨le_refl _, le_refl _⟩, ?_, ?_, ?_⟩
        · intro _
          exact ⟨rfl, rfl⟩
        · intro n b a o heq
          exact LightOp.noConfusion heq
        · intro bet2 bettor2 heq
          exact ⟨rfl, Nat.sub_le _ _⟩
      · exact Except.noConfusion h

/-- Facts about one successful `plainStep`, mirroring `lightStep_ok_facts`. -/
theorem plainStep_ok_facts (m : Market) (v : Nat) (op : PlainOp)
    (m2 : Market) (v2 : Nat)
    (h : plainStep m v op = .ok (m2, v2)) :
    (m.yes_pool ≤ m2.yes_pool ∧ m.no_pool ≤ m2.no_pool) ∧
    ((∀ now user amount outcome,
        op ≠ PlainOp.placeBet now user amount outcome) →
      m2.yes_pool = m.yes_pool ∧ m2.no_pool = m.no_pool) ∧
    (∀ now user amount outcome,
      op = PlainOp.placeBet now user amount outcome →
      m.status = .Active ∧ now < m.expires_at) ∧
    (∀ bet user, op = PlainOp.claim bet user → m2 = m ∧ v2 ≤ v) := by
  cases op with
  | placeBet now user amount outcome =>
    simp only [plainStep] at h
    cases hr : place_bet now m user amount outcome with
    | error e => rw [hr] at h; simp at h
    | ok r =>
      rw [hr] at h
      simp only [exceptMap_ok, Except.ok.injEq, Prod.mk.injEq] at h
      obtain ⟨hm, hv⟩ := h
      subst hm
      subst hv
      have hf := place_bet_ok_facts now m user amount outcome r hr
      refine ⟨⟨hf.2.2.1, hf.2.2.2⟩, ?_, ?_, ?_⟩
      · intro hne
        exact absurd rfl (hne now user amount outcome)
      · intro n b a o heq
        cases heq
        exact ⟨hf.1, hf.2.1⟩
      · intro bet user2 heq
        exact PlainOp.noConfusion heq
  | placeShielded now user enc zk outcome =>
    simp only [plainStep] at h
    cases hr : shielded_bet now m user enc zk outcome with
    | error e => rw [hr] at h; simp at h
    | ok r =>
      rw [hr] at h
      simp only [exceptMap_ok, Except.ok.injEq, Prod.mk.injEq] at h
      obtain ⟨hm, hv⟩ := h
      subst hm
      subst hv
      have hf := shielded_bet_ok_facts now m user enc zk outcome r hr
      refine ⟨⟨le_of_eq hf.1.symm, le_of_eq hf.2.1.symm⟩, ?_, ?_, ?_⟩
      · intro _
        exact ⟨hf.1, hf.2.1⟩
      · intro n b a o heq
        exact PlainOp.noConfusion heq
      · intro bet user2 heq
        exact PlainOp.noConfusion heq
  | resolveManual resolver now outcome =>
    simp only [plainStep] at h
    cases hr : resolve_market m resolver now outcome with
    | error e => rw [hr] at h; simp at h
    | ok mm =>
      rw [hr] at h
      simp only [exceptMap_ok, Except.ok.injEq, Prod.mk.injEq] at h
      obtain ⟨hm, hv⟩ := h
      subst hm
      subst hv
      have hf := resolve_market_pool_facts m resolver now outcome mm hr
      refine ⟨⟨le_of_eq hf.1.symm, le_of_eq hf.2.symm⟩, ?_, ?_, ?_⟩
      · intro _
        exact ⟨hf.1, hf.2⟩
      · intro n b a o heq
        exact PlainOp.noConfusion heq
      · intro bet user2 heq
        exact PlainOp.noConfusion heq
  | claim bet user =>
    simp only [plainStep] at h
    cases hr : claim_winnings m bet user with
    | error e => rw [hr] at h; simp at h
    | ok r =>
      rw [hr] at h
      simp only [exceptDotBind_ok] at h
      split at h
      · simp only [Except.ok.injEq, Prod.mk.injEq] at h
        obtain ⟨hm, hv⟩ := h
        subst hm
        subst hv
        refine ⟨⟨le_refl _, le_refl _⟩, ?_, ?_, ?_⟩
        · intro _
          exact ⟨rfl, rfl⟩
        · intro n b a o heq
          exact PlainOp.noConfusion heq
        · intro bet2 user2 heq
          exact ⟨rfl, Nat.sub_le _ _⟩
      · exact Except.noConfusion h

/-- C9.  Pool monotonicity across both variants: markets are created with
zero pools; no successful core operation ever shrinks `yes_pool` or
`no_pool`; every operation other than a successful plain bet leaves both
pools exactly unchanged; a plain bet succeeds only against an active,
unexpired market (and resolution deactivates the market, so only before
resolution); and a claim never touches the market record at all — it drains
only the separate vault balance. -/
theorem pools_monotone_invariant :
    (∀ (now : Int) (creator : Nat) (q c rg : String) (ip : Bool) (e : Int)
        (m : Market),
      create_market now creator q c rg ip e = .ok m →
      m.yes_pool = 0 ∧ m.no_pool = 0) ∧
    (∀ (now : Int) (creator : Nat) (qh : List Nat) (cat reg : Nat) (rd : Int)
        (oa : Nat) (ot : Int) (ob : Bool) (m : LightMarketStub),
      create_light_market now creator qh cat reg rd oa ot ob = .ok m →
      m.yes_pool = 0 ∧ m.no_pool = 0) ∧
    (∀ (m : LightMarketStub) (v : Nat) (op : LightOp) (m2 : LightMarketStub)
        (v2 : Nat),
      lightStep m v op = .ok (m2, v2) →
      (m.yes_pool ≤ m2.yes_pool ∧ m.no_pool ≤ m2.no_pool) ∧
      ((∀ now bettor amount outcome,
          op ≠ LightOp.placeBet now bettor amount outcome) →
        m2.yes_pool = m.yes_pool ∧ m2.no_pool = m.no_pool) ∧
      (∀ now bettor amount outcome,
        op = LightOp.placeBet now bettor amount outcome →
        m.is_active = true ∧ now < m.resolve_date) ∧
      (∀ bet bettor, op = LightOp.claim bet bettor → m2 = m ∧ v2 ≤ v)) ∧
    (∀ (m : Market) (v : Nat) (op : PlainOp) (m2 : Market) (v2 : Nat),
      plainStep m v op = .ok (m2, v2) →
      (m.yes_pool ≤ m2.yes_pool ∧ m.no_pool ≤ m2.no_pool) ∧
      ((∀ now user amount outcome,
          op ≠ PlainOp.placeBet now user amount outcome) →
        m2.yes_pool = m.yes_pool ∧ m2.no_pool = m.no_pool) ∧
      (∀ now user amount outcome,
        op = PlainOp.placeBet now user amount outcome →
        m.status = .Active ∧ now < m.expires_at) ∧
      (∀ bet user, op = PlainOp.claim bet user → m2 = m ∧ v2 ≤ v)) := by
  refine ⟨?_, ?_, ?_, ?_⟩
  · intro now creator q c rg ip e m h
    unfold create_market at h
    repeat' split at h
    all_goals try exact Except.noConfusion h
    all_goals cases h
    all_goals exact ⟨rfl, rfl⟩
  · intro now creator qh cat reg rd oa ot ob m h
    unfold create_light_market at h
    repeat' split at h
    all_goals try exact Except.noConfusion h
    all_goals cases h
    all_goals exact ⟨rfl, rfl⟩
  · intro m v op m2 v2 h
    exact lightStep_ok_facts m v op m2 v2 h
  · intro m v op m2 v2 h
    exact plainStep_ok_facts m v op m2 v2 h

/-- Witness for C9: a minimum-size plain bet on the fresh `light_c9` grows
the YES pool from 0 to the net stake 9950000 and credits the vault. -/
theorem pools_monotone_invariant_witness :
    lightStep light_c9 0 (LightOp.placeBet 0 1 MIN_BET true) =
      .ok ({ light_c9 with yes_pool := 9950000, total_bets := 1 }, 9950000) ∧
    light_c9.yes_pool ≤
      ({ light_c9 with yes_pool := 9950000, total_bets := 1 } : LightMarketStub).yes_pool := by
  have h := pools_monotone_invariant.2.2.1 light_c9 0
    (LightOp.placeBet 0 1 MIN_BET true)
    { light_c9 with yes_pool := 9950000, total_bets := 1 } 9950000 (by decide)
  exact ⟨by decide, h.1.1⟩

/-- C10.  A price record whose publish slot lies strictly in the FUTURE of
the current slot passes the staleness check: the slot difference is taken
with saturating subtraction, so it evaluates to zero, and the record is
accepted as fresh whenever the length, magic, exponent, and status checks
also pass. -/
theorem future_pub_slot_accepted :
    ∀ (data : List Nat) (slot : Nat),
    240 ≤ data.length → readU32LE data 0 = PYTH_MAGIC →
    -12 ≤ readI32LE data 20 → readI32LE data 20 ≤ 0 →
    slot < readU64LE data 232 → readU32LE data 224 = 1 →
    read_pyth_price data slot = .ok (readI64LE data 208) := by
  intro data slot h1 h2 h3a h3b hfut h5
  rw [read_pyth_price, if_neg (by omega), if_neg (by simp [h2]),
    if_neg (by simp; omega), if_neg (by omega), if_neg (by simp [h5])]

set_option maxRecDepth 4000 in
/-- Witness for C10: `feed_c10` is published at slot 100 but read at slot
50; the reader still accepts it and returns its price 7. -/
theorem future_pub_slot_accepted_witness :
    50 < readU64LE feed_c10 232 ∧
    read_pyth_price feed_c10 50 = .ok (readI64LE feed_c10 208) ∧
    readI64LE feed_c10 208 = 7 := by
  refine ⟨by decide,
    future_pub_slot_accepted feed_c10 50 (by decide) (by decide) (by decide)
      (by decide) (by decide) (by decide),
    by decide⟩

end Ilowa
